import Mathlib

/-!
Verification development for the credit-card training script (`train.py`).

The script is a linear pipeline: it loads a CSV dataset into a data frame,
splits it into train/test partitions with `train_test_split(test_size=0.25)`
(no fixed random seed), pops the label column
"default payment next month" from each partition, and then runs two
training cycles (a gradient-boosting classifier, then an AdaBoost
classifier), each wrapped in an mlflow run (`start_run` / `end_run`)
with a printed data shape and classification report.

The development has three layers:
1. a functional model of the tabular operations (`DataFrame`,
   `DataFrame.pop`, `train_test_split`);
2. a trace model of the script's step sequence with a per-step failure
   oracle, giving the abort-on-exception semantics;
3. a state-machine model of the error-free execution, parametric in the
   library-owned prediction functions.
-/

/-- Tabular data: named columns and rows of integer values, as loaded by
`pd.read_csv` (the credit-card dataset is numeric). -/
structure DataFrame where
  cols : List String
  rows : List (List Int)
deriving DecidableEq, Repr

/-- Position of a named column in a column list, `none` when absent.
This models pandas' label lookup used by `DataFrame.pop`. -/
def colIndex (cols : List String) (name : String) : Option Nat :=
  match cols with
  | [] => none
  | c :: t => if c = name then some 0 else (colIndex t name).map (· + 1)

/-- Model of `pandas.DataFrame.pop(name)`: when the column is present,
return the popped column (the label vector) together with the data frame
with that column removed from every row; when absent, `none`
(pandas raises `KeyError`). -/
def DataFrame.pop (df : DataFrame) (name : String) : Option (List Int × DataFrame) :=
  match colIndex df.cols name with
  | none => none
  | some j =>
      some (df.rows.map (fun r => r.getD j 0),
            ⟨df.cols.eraseIdx j, df.rows.map (fun r => r.eraseIdx j)⟩)

/-- The state semantics of a `pop` call: the returned label vector (or
`none` on `KeyError`) together with the data frame the caller holds after
the call. On failure pandas leaves the frame unchanged. -/
def DataFrame.popRun (df : DataFrame) (name : String) : Option (List Int) × DataFrame :=
  match df.pop name with
  | none => (none, df)
  | some (y, df2) => (some y, df2)

/-- The label column name used by `train.py`. -/
def labelCol : String := "default payment next month"

/-- Number of test rows chosen by sklearn for `test_size=0.25`:
`ceil(0.25 * n)`. -/
def nTest (n : Nat) : Nat := (n + 3) / 4

/-- Row indices assigned to the test partition: the first `nTest n`
entries of the shuffle permutation (sklearn's `ShuffleSplit`). -/
def testIndices (df : DataFrame) (perm : List Nat) : List Nat :=
  perm.take (nTest df.rows.length)

/-- Row indices assigned to the train partition: the remaining entries of
the shuffle permutation. -/
def trainIndices (df : DataFrame) (perm : List Nat) : List Nat :=
  perm.drop (nTest df.rows.length)

/-- Model of `sklearn.model_selection.train_test_split(df, test_size=0.25)`.
The randomness is the shuffle permutation `perm` of the row indices, an
explicit parameter here because the script fixes no random seed. Returns
`(train_df, test_df)`. -/
def train_test_split (df : DataFrame) (perm : List Nat) : DataFrame × DataFrame :=
  (⟨df.cols, (trainIndices df perm).map (fun i => df.rows.getD i [])⟩,
   ⟨df.cols, (testIndices df perm).map (fun i => df.rows.getD i [])⟩)

/-- The observable steps of `train.py`, in source order. -/
inductive Step where
  | load
  | split
  | popTrain
  | popTest
  | setExperiment
  | autolog
  | printShape1
  | startRun1
  | fit1
  | predict1
  | report1
  | endRun1
  | printShape2
  | startRun2
  | fit2
  | predict2
  | report2
  | endRun2
deriving DecidableEq, Repr

/-- The script: the steps of `train.py` in program order. -/
def script : List Step :=
  [Step.load, Step.split, Step.popTrain, Step.popTest,
   Step.setExperiment, Step.autolog,
   Step.printShape1, Step.startRun1, Step.fit1, Step.predict1,
   Step.report1, Step.endRun1,
   Step.printShape2, Step.startRun2, Step.fit2, Step.predict2,
   Step.report2, Step.endRun2]

/-- Failure-oracle semantics: `ok s = true` means the call `s` returns
normally, `ok s = false` means it raises. Nothing is caught, so the
process executes exactly the longest prefix of successful steps; the
first failing step starts but never completes. -/
def completed (ok : Step → Bool) : List Step := script.takeWhile ok

/-- The first step whose call raises, if any. -/
def firstFail (ok : Step → Bool) : Option Step := script.find? (fun s => !ok s)

/-- Steps that start an mlflow run. -/
def isStartStep (s : Step) : Bool := s == Step.startRun1 || s == Step.startRun2

/-- Steps that end an mlflow run. -/
def isEndStep (s : Step) : Bool := s == Step.endRun1 || s == Step.endRun2

/-- Number of mlflow runs active after a list of completed steps. -/
def runBalance (t : List Step) : Nat := t.countP isStartStep - t.countP isEndStep

/-- A trace leaves a dangling open run when more runs were started than
ended. -/
def dangling (t : List Step) : Bool := t.countP isEndStep < t.countP isStartStep

/-- The data-preparation steps of the script: loading, splitting, and
label extraction for both partitions. -/
def prepSteps : List Step := [Step.load, Step.split, Step.popTrain, Step.popTest]

/-- A fitted model, abstracted as the training data it was fit on: the
fitting algorithms belong to sklearn, outside this repository. -/
def MData : Type := List (List Int) × List Int

/-- Environment of one script execution: the CSV content returned by the
network fetch, the shuffle permutation drawn by the splitter, and the two
library-owned prediction functions (gradient boosting and AdaBoost),
mapping a fitted model and a feature matrix to predicted labels. -/
structure Params where
  sourceDf : DataFrame
  perm : List Nat
  predGB : MData → List (List Int) → List Int
  predAda : MData → List (List Int) → List Int

/-- One console line written by the script: either the training-shape
message or a classification report of true labels against predictions
(the report's formatting belongs to sklearn). -/
inductive OutLine where
  | shapeMsg (shape : Nat × Nat)
  | reportMsg (yTrue yPred : List Int)
deriving DecidableEq, Repr

/-- Shape of a `values` array: row count and column count of the first
row, as numpy reports for a rectangular array. -/
def valuesShape (x : List (List Int)) : Nat × Nat := (x.length, (x.headD []).length)

/-- Program state of `train.py`: the data-frame variables, the extracted
arrays, the fitted models, mlflow's process-wide tracking state, and the
console output so far. -/
structure MLState where
  credit_df : DataFrame
  train_df : DataFrame
  test_df : DataFrame
  X_train : List (List Int)
  y_train : Option (List Int)
  X_test : List (List Int)
  y_test : Option (List Int)
  clfData : Option MData
  adaData : Option MData
  y_pred : List Int
  experiment : Option String
  autologOn : Bool
  activeRuns : Nat
  printed : List OutLine

/-- State before the script runs: nothing loaded, no run active, nothing
printed. -/
def initState : MLState :=
  { credit_df := ⟨[], []⟩
    train_df := ⟨[], []⟩
    test_df := ⟨[], []⟩
    X_train := []
    y_train := none
    X_test := []
    y_test := none
    clfData := none
    adaData := none
    y_pred := []
    experiment := none
    autologOn := false
    activeRuns := 0
    printed := [] }

/-- Effect of one successfully returning step on the program state,
line by line from `train.py`. `fit` stores the training data in the
model; `predict` applies the library's prediction function to the test
features; the two `print` calls append the training-data shape and the
classification report. -/
def stepEffect (p : Params) (st : MLState) : Step → MLState
  | Step.load => { st with credit_df := p.sourceDf }
  | Step.split =>
      let pair := train_test_split st.credit_df p.perm
      { st with train_df := pair.1, test_df := pair.2 }
  | Step.popTrain =>
      let r := st.train_df.popRun labelCol
      { st with y_train := r.1, train_df := r.2, X_train := r.2.rows }
  | Step.popTest =>
      let r := st.test_df.popRun labelCol
      { st with y_test := r.1, test_df := r.2, X_test := r.2.rows }
  | Step.setExperiment => { st with experiment := some "Develop on cloud tutorial" }
  | Step.autolog => { st with autologOn := true }
  | Step.printShape1 =>
      { st with printed := st.printed ++ [OutLine.shapeMsg (valuesShape st.X_train)] }
  | Step.startRun1 => { st with activeRuns := st.activeRuns + 1 }
  | Step.fit1 => { st with clfData := some (st.X_train, st.y_train.getD []) }
  | Step.predict1 =>
      { st with y_pred := p.predGB (st.clfData.getD ([], [])) st.X_test }
  | Step.report1 =>
      { st with printed := st.printed ++ [OutLine.reportMsg (st.y_test.getD []) st.y_pred] }
  | Step.endRun1 => { st with activeRuns := st.activeRuns - 1 }
  | Step.printShape2 =>
      { st with printed := st.printed ++ [OutLine.shapeMsg (valuesShape st.X_train)] }
  | Step.startRun2 => { st with activeRuns := st.activeRuns + 1 }
  | Step.fit2 => { st with adaData := some (st.X_train, st.y_train.getD []) }
  | Step.predict2 =>
      { st with y_pred := p.predAda (st.adaData.getD ([], [])) st.X_test }
  | Step.report2 =>
      { st with printed := st.printed ++ [OutLine.reportMsg (st.y_test.getD []) st.y_pred] }
  | Step.endRun2 => { st with activeRuns := st.activeRuns - 1 }

/-- Run a list of steps from a state. -/
def runSteps (p : Params) (st : MLState) (t : List Step) : MLState :=
  t.foldl (stepEffect p) st

/-- State after the first `n` steps of the error-free execution. -/
def runUpTo (p : Params) (n : Nat) : MLState := runSteps p initState (script.take n)

/-- Final state of the error-free execution of `train.py`. -/
def runScript (p : Params) : MLState := runSteps p initState script

/-- The train/test feature matrices and label vectors produced by the
data-preparation stage: split once, then pop the label from each
partition. -/
def pipelineData (df : DataFrame) (perm : List Nat) :
    List (List Int) × List Int × List (List Int) × List Int :=
  let pair := train_test_split df perm
  let tr := pair.1.popRun labelCol
  let te := pair.2.popRun labelCol
  (tr.2.rows, (tr.1.getD []), te.2.rows, (te.1.getD []))

/-- Sample frame whose columns include the label column. -/
def dfSample : DataFrame := ⟨["limit", labelCol], [[1, 0], [2, 1], [3, 0]]⟩

/-- Sample frame without the label column. -/
def dfNoLabel : DataFrame := ⟨["limit", "age"], [[1, 30]]⟩

/-- Sample execution environment: the sample frame, a concrete shuffle,
and two constant prediction functions. -/
def pSample : Params :=
  ⟨dfSample, [2, 0, 1], fun _ x => x.map (fun _ => 0), fun _ x => x.map (fun _ => 1)⟩

theorem colIndex_eq_none_iff (cols : List String) (name : String) :
    colIndex cols name = none ↔ name ∉ cols := by
  induction cols with
  | nil => simp [colIndex]
  | cons c t ih =>
    by_cases h : c = name
    · simp [colIndex, h]
    · simp only [colIndex, h, if_false, Option.map_eq_none', ih, List.mem_cons, not_or]
      exact ⟨fun ht => ⟨fun hn => h hn.symm, ht⟩, fun hp => hp.2⟩

theorem colIndex_lt (cols : List String) (name : String) (j : Nat)
    (h : colIndex cols name = some j) : j < cols.length := by
  induction cols generalizing j with
  | nil => simp [colIndex] at h
  | cons c t ih =>
    by_cases hc : c = name
    · simp [colIndex, hc] at h
      simp only [List.length_cons]
      omega
    · simp [colIndex, hc, Option.map_eq_some'] at h
      obtain ⟨j2, hj2, rfl⟩ := h
      have := ih j2 hj2
      simp only [List.length_cons]
      omega

theorem eraseIdx_of_colIndex (cols : List String) (name : String) (j : Nat)
    (h : colIndex cols name = some j) : cols.eraseIdx j = cols.erase name := by
  induction cols generalizing j with
  | nil => simp [colIndex] at h
  | cons c t ih =>
    by_cases hc : c = name
    · simp [colIndex, hc] at h
      subst h
      simp [List.eraseIdx, List.erase_cons, hc]
    · simp [colIndex, hc, Option.map_eq_some'] at h
      obtain ⟨j2, hj2, rfl⟩ := h
      have hbeq : (c == name) = false := by simp [hc]
      simp [List.eraseIdx, List.erase_cons, hbeq, ih j2 hj2]

/-- C3: the Label Extractor (`DataFrame.pop`), applied to a partition and a
label column name, removes the named column and returns the label vector
and the remaining frame when the column is present; it fails (KeyError)
exactly when the named column is absent, and in that case the partition is
unchanged. -/
theorem pop_keyerror_iff_absent (df : DataFrame) (name : String) :
    (df.pop name = none ↔ name ∉ df.cols) ∧
    (name ∉ df.cols → df.popRun name = (none, df)) ∧
    (name ∈ df.cols →
      ∃ y df2, df.pop name = some (y, df2) ∧
        df.popRun name = (some y, df2) ∧
        df2.cols = df.cols.erase name ∧
        df2.rows.length = df.rows.length) := by
  have hiff := colIndex_eq_none_iff df.cols name
  refine ⟨?_, ?_, ?_⟩
  · cases hc : colIndex df.cols name with
    | none => simp [DataFrame.pop, hc, hiff.mp hc]
    | some j =>
      have hmem : name ∈ df.cols := by
        by_contra hn
        rw [hiff.mpr hn] at hc
        exact Option.noConfusion hc
      simp [DataFrame.pop, hc, hmem]
  · intro hn
    have hc : colIndex df.cols name = none := hiff.mpr hn
    simp [DataFrame.popRun, DataFrame.pop, hc]
  · intro hmem
    cases hc : colIndex df.cols name with
    | none => exact absurd (hiff.mp hc) (by simp [hmem])
    | some j =>
      refine ⟨df.rows.map (fun r => r.getD j 0),
        ⟨df.cols.eraseIdx j, df.rows.map (fun r => r.eraseIdx j)⟩, ?_, ?_, ?_, ?_⟩
      · simp [DataFrame.pop, hc]
      · simp [DataFrame.popRun, DataFrame.pop, hc]
      · exact eraseIdx_of_colIndex df.cols name j hc
      · simp

/-- Witness for C3: on a frame with the label column, pop succeeds and
removes it; on a frame without it, pop fails and leaves the frame
unchanged. -/
theorem pop_keyerror_iff_absent_witness :
    (labelCol ∉ dfNoLabel.cols ∧ dfNoLabel.popRun labelCol = (none, dfNoLabel)) ∧
    (labelCol ∈ dfSample.cols ∧
      ∃ y df2, dfSample.pop labelCol = some (y, df2) ∧
        dfSample.popRun labelCol = (some y, df2) ∧
        df2.cols = dfSample.cols.erase labelCol ∧
        df2.rows.length = dfSample.rows.length) :=
  ⟨⟨by decide, (pop_keyerror_iff_absent dfNoLabel labelCol).2.1 (by decide)⟩,
   ⟨by decide, (pop_keyerror_iff_absent dfSample labelCol).2.2 (by decide)⟩⟩

theorem nTest_le (n : Nat) : nTest n ≤ n := by
  simp only [nTest]
  omega

/-- C1: the Splitter partitions the dataset's rows: the train and test
partitions' sizes add up to the dataset's size, the two index sets are
disjoint, and every row index lands in exactly one partition. The
hypothesis says the shuffle `perm` is a permutation of the row indices. -/
theorem splitter_partition_invariant (df : DataFrame) (perm : List Nat)
    (h : perm.Perm (List.range df.rows.length)) :
    (train_test_split df perm).1.rows.length
        + (train_test_split df perm).2.rows.length = df.rows.length ∧
    List.Disjoint (trainIndices df perm) (testIndices df perm) ∧
    (∀ i < df.rows.length,
      (i ∈ trainIndices df perm ∧ i ∉ testIndices df perm) ∨
      (i ∉ trainIndices df perm ∧ i ∈ testIndices df perm)) := by
  have hlen : perm.length = df.rows.length := by
    simpa using h.length_eq
  have hnd : perm.Nodup := h.nodup_iff.mpr (List.nodup_range _)
  have hsplit : perm.take (nTest df.rows.length) ++ perm.drop (nTest df.rows.length) = perm :=
    List.take_append_drop _ _
  have hnd2 : (perm.take (nTest df.rows.length) ++ perm.drop (nTest df.rows.length)).Nodup := by
    rw [hsplit]
    exact hnd
  obtain ⟨-, -, hdisj⟩ := List.nodup_append.mp hnd2
  refine ⟨?_, ?_, ?_⟩
  · have hk : nTest df.rows.length ≤ df.rows.length := nTest_le _
    simp only [train_test_split, trainIndices, testIndices, List.length_map,
      List.length_drop, List.length_take, hlen]
    omega
  · exact fun a ha hb => hdisj hb ha
  · intro i hi
    have hip : i ∈ perm := h.mem_iff.mpr (List.mem_range.mpr hi)
    have : i ∈ perm.take (nTest df.rows.length) ++ perm.drop (nTest df.rows.length) := by
      rw [hsplit]
      exact hip
    rcases List.mem_append.mp this with hta | hdr
    · exact Or.inr ⟨fun hd => hdisj hta hd, hta⟩
    · exact Or.inl ⟨hdr, fun ht => hdisj ht hdr⟩

/-- Witness for C1 at a concrete three-row frame and shuffle. -/
theorem splitter_partition_invariant_witness :
    ([2, 0, 1] : List Nat).Perm (List.range dfSample.rows.length) ∧
    ((train_test_split dfSample [2, 0, 1]).1.rows.length
        + (train_test_split dfSample [2, 0, 1]).2.rows.length = dfSample.rows.length ∧
     List.Disjoint (trainIndices dfSample [2, 0, 1]) (testIndices dfSample [2, 0, 1]) ∧
     (∀ i < dfSample.rows.length,
       (i ∈ trainIndices dfSample [2, 0, 1] ∧ i ∉ testIndices dfSample [2, 0, 1]) ∨
       (i ∉ trainIndices dfSample [2, 0, 1] ∧ i ∈ testIndices dfSample [2, 0, 1]))) :=
  ⟨by decide, splitter_partition_invariant dfSample [2, 0, 1] (by decide)⟩

theorem pop_shape_core (pdf : DataFrame) (j : Nat)
    (hrect : ∀ r ∈ pdf.rows, r.length = pdf.cols.length)
    (hc : colIndex pdf.cols labelCol = some j) :
    ∃ y fdf, pdf.pop labelCol = some (y, fdf) ∧
      fdf.rows.length = pdf.rows.length ∧
      (∀ r ∈ fdf.rows, r.length = pdf.cols.length - 1) ∧
      y.length = pdf.rows.length ∧
      (∀ i : Nat, y[i]? = (pdf.rows[i]?).map (fun r => r.getD j 0)) ∧
      (∀ i : Nat, fdf.rows[i]? = (pdf.rows[i]?).map (fun r => r.eraseIdx j)) := by
  have hj : j < pdf.cols.length := colIndex_lt _ _ _ hc
  refine ⟨pdf.rows.map (fun r => r.getD j 0),
    ⟨pdf.cols.eraseIdx j, pdf.rows.map (fun r => r.eraseIdx j)⟩,
    by simp [DataFrame.pop, hc], by simp, ?_, by simp, ?_, ?_⟩
  · intro r hr
    simp only [List.mem_map] at hr
    obtain ⟨a, ha, rfl⟩ := hr
    rw [List.length_eraseIdx]
    rw [hrect a ha]
    simp [hj]
  · intro i
    simp [List.getElem?_map]
  · intro i
    simp [List.getElem?_map]

theorem partition_rows_rect (df : DataFrame) (perm : List Nat)
    (hperm : perm.Perm (List.range df.rows.length))
    (hrect : ∀ r ∈ df.rows, r.length = df.cols.length)
    (idx : List Nat) (hsub : idx ⊆ perm) :
    ∀ r ∈ idx.map (fun i => df.rows.getD i []), r.length = df.cols.length := by
  intro r hr
  simp only [List.mem_map] at hr
  obtain ⟨i, hi, rfl⟩ := hr
  have hir : i < df.rows.length := List.mem_range.mp (hperm.mem_iff.mp (hsub hi))
  have hmem : df.rows.getD i [] ∈ df.rows := by
    rw [List.getD_eq_getElem df.rows [] hir]
    exact List.getElem_mem hir
  exact hrect _ hmem

/-- C2: on both partitions of the split, the Label Extractor returns a
feature matrix with as many rows as the partition and one column fewer
than the dataset, and a label vector of the partition's length aligned
row by row with the feature matrix (entry `i` of the vector and row `i`
of the matrix come from row `i` of the partition). -/
theorem label_extractor_shapes (df : DataFrame) (perm : List Nat)
    (hperm : perm.Perm (List.range df.rows.length))
    (hrect : ∀ r ∈ df.rows, r.length = df.cols.length)
    (hlab : labelCol ∈ df.cols) :
    ∃ j, colIndex df.cols labelCol = some j ∧
      ∀ pdf ∈ [(train_test_split df perm).1, (train_test_split df perm).2],
        ∃ y fdf, pdf.pop labelCol = some (y, fdf) ∧
          fdf.rows.length = pdf.rows.length ∧
          (∀ r ∈ fdf.rows, r.length = df.cols.length - 1) ∧
          y.length = pdf.rows.length ∧
          (∀ i : Nat, y[i]? = (pdf.rows[i]?).map (fun r => r.getD j 0)) ∧
          (∀ i : Nat, fdf.rows[i]? = (pdf.rows[i]?).map (fun r => r.eraseIdx j)) := by
  have hcne : colIndex df.cols labelCol ≠ none :=
    fun hn => (colIndex_eq_none_iff _ _).mp hn hlab
  cases hc : colIndex df.cols labelCol with
  | none => exact absurd hc hcne
  | some j =>
    refine ⟨j, rfl, ?_⟩
    intro pdf hpdf
    have hcases : pdf = (train_test_split df perm).1 ∨ pdf = (train_test_split df perm).2 := by
      simpa using hpdf
    rcases hcases with rfl | rfl
    · exact pop_shape_core _ j
        (partition_rows_rect df perm hperm hrect _ (List.drop_subset _ _)) hc
    · exact pop_shape_core _ j
        (partition_rows_rect df perm hperm hrect _ (List.take_subset _ _)) hc

/-- Witness for C2 at a concrete three-row, two-column frame. -/
theorem label_extractor_shapes_witness :
    ([2, 0, 1] : List Nat).Perm (List.range dfSample.rows.length) ∧
    (∀ r ∈ dfSample.rows, r.length = dfSample.cols.length) ∧
    labelCol ∈ dfSample.cols ∧
    (∃ j, colIndex dfSample.cols labelCol = some j ∧
      ∀ pdf ∈ [(train_test_split dfSample [2, 0, 1]).1, (train_test_split dfSample [2, 0, 1]).2],
        ∃ y fdf, pdf.pop labelCol = some (y, fdf) ∧
          fdf.rows.length = pdf.rows.length ∧
          (∀ r ∈ fdf.rows, r.length = dfSample.cols.length - 1) ∧
          y.length = pdf.rows.length ∧
          (∀ i : Nat, y[i]? = (pdf.rows[i]?).map (fun r => r.getD j 0)) ∧
          (∀ i : Nat, fdf.rows[i]? = (pdf.rows[i]?).map (fun r => r.eraseIdx j))) :=
  ⟨by decide, by decide, by decide,
   label_extractor_shapes dfSample [2, 0, 1] (by decide) (by decide) (by decide)⟩

/-- C7: the Splitter runs with test fraction 0.25 (`nTest` is the ceiling
of a quarter of the row count) and the shuffle is an input the dataset
does not determine: two valid shuffles of the same dataset yield
different train/test partitions, so the partition assignment is not a
function of the dataset alone. -/
theorem split_nondeterministic :
    nTest 100 = 25 ∧
    ([0, 1, 2] : List Nat).Perm (List.range dfSample.rows.length) ∧
    ([2, 0, 1] : List Nat).Perm (List.range dfSample.rows.length) ∧
    train_test_split dfSample [0, 1, 2] ≠ train_test_split dfSample [2, 0, 1] := by
  decide

/-- C5: on the error-free path every step completes; at most one run is
ever active; after each run-starting step exactly one run is active;
after each run-ending step zero runs are active; and the first occurrence
of the second cycle's start comes after the first cycle's end. -/
theorem run_logger_balanced :
    completed (fun _ => true) = script ∧
    (∀ n, n ≤ script.length → runBalance (script.take n) ≤ 1) ∧
    (∀ n, n < script.length →
      (isStartStep (script.getD n Step.load) = true →
        runBalance (script.take (n + 1)) = 1) ∧
      (isEndStep (script.getD n Step.load) = true →
        runBalance (script.take (n + 1)) = 0)) ∧
    script.findIdx (· == Step.endRun1) < script.findIdx (· == Step.startRun2) := by
  refine ⟨by decide, by decide, by decide, by decide⟩

/-- Witness for C5 at the first start step (index 7) and the first end
step (index 11). -/
theorem run_logger_balanced_witness :
    runBalance (script.take 8) = 1 ∧ runBalance (script.take 12) = 0 :=
  ⟨(run_logger_balanced.2.2.1 7 (by decide)).1 (by decide),
   (run_logger_balanced.2.2.1 11 (by decide)).2 (by decide)⟩

/-- C4: the script contains exactly one split step; it precedes the first
cycle's fit, which precedes the second cycle's start and fit; and the
train/test arrays the second cycle's fit reads (state after 14 steps'
worth of prefix, just before `fit2`) are exactly those the first cycle's
fit read (state just before `fit1`), for every execution environment: the
second cycle never re-splits. -/
theorem single_split_shared_partitions :
    script.count Step.split = 1 ∧
    script.findIdx (· == Step.split) < script.findIdx (· == Step.fit1) ∧
    script.findIdx (· == Step.fit1) < script.findIdx (· == Step.startRun2) ∧
    script.findIdx (· == Step.startRun2) < script.findIdx (· == Step.fit2) ∧
    (∀ p : Params,
      (runUpTo p 14).X_train = (runUpTo p 8).X_train ∧
      (runUpTo p 14).y_train = (runUpTo p 8).y_train ∧
      (runUpTo p 14).X_test = (runUpTo p 8).X_test ∧
      (runUpTo p 14).y_test = (runUpTo p 8).y_test) := by
  refine ⟨by decide, by decide, by decide, by decide, fun p => ⟨?_, ?_, ?_, ?_⟩⟩ <;>
    simp [runUpTo, runSteps, script, stepEffect]

/-- C9: fitting and predicting with the first model writes no data
variable: the state just before the second cycle's fit (prefix of 14
steps) carries exactly the `X_train`, `y_train`, `X_test`, `y_test` the
first cycle's fit saw (prefix of 8 steps), and the shape line printed
before the second cycle (console line 2) equals the one printed before
the first (console line 0). -/
theorem frame_data_unchanged (p : Params) :
    (runUpTo p 14).X_train = (runUpTo p 8).X_train ∧
    (runUpTo p 14).y_train = (runUpTo p 8).y_train ∧
    (runUpTo p 14).X_test = (runUpTo p 8).X_test ∧
    (runUpTo p 14).y_test = (runUpTo p 8).y_test ∧
    (runScript p).printed[2]? = (runScript p).printed[0]? ∧
    (runScript p).printed[0]? =
      some (OutLine.shapeMsg (valuesShape ((runUpTo p 8).X_train))) := by
  refine ⟨?_, ?_, ?_, ?_, ?_, ?_⟩ <;>
    simp [runUpTo, runScript, runSteps, script, stepEffect, initState]

/-- C8: on the error-free path (the label column is present, so both pops
succeed) the console output is exactly two blocks, one per model; each
block is the training-data shape line followed by the classification
report of the true test labels against that model's predictions on the
test features. -/
theorem console_two_blocks (p : Params) (hlab : labelCol ∈ p.sourceDf.cols) :
    ∃ xtr ytr xte yte,
      pipelineData p.sourceDf p.perm = (xtr, ytr, xte, yte) ∧
      (runScript p).y_train = some ytr ∧
      (runScript p).y_test = some yte ∧
      (runScript p).printed =
        [OutLine.shapeMsg (valuesShape xtr),
         OutLine.reportMsg yte (p.predGB (xtr, ytr) xte),
         OutLine.shapeMsg (valuesShape xtr),
         OutLine.reportMsg yte (p.predAda (xtr, ytr) xte)] := by
  have hcne : colIndex p.sourceDf.cols labelCol ≠ none :=
    fun hn => (colIndex_eq_none_iff _ _).mp hn hlab
  cases hc : colIndex p.sourceDf.cols labelCol with
  | none => exact absurd hc hcne
  | some j =>
    refine ⟨(pipelineData p.sourceDf p.perm).1, (pipelineData p.sourceDf p.perm).2.1,
      (pipelineData p.sourceDf p.perm).2.2.1, (pipelineData p.sourceDf p.perm).2.2.2,
      rfl, ?_, ?_, ?_⟩ <;>
      simp [runScript, runSteps, script, stepEffect, initState, pipelineData,
        DataFrame.popRun, DataFrame.pop, train_test_split, hc]

/-- Witness for C8 at the sample environment. -/
theorem console_two_blocks_witness :
    labelCol ∈ pSample.sourceDf.cols ∧
    (∃ xtr ytr xte yte,
      pipelineData pSample.sourceDf pSample.perm = (xtr, ytr, xte, yte) ∧
      (runScript pSample).y_train = some ytr ∧
      (runScript pSample).y_test = some yte ∧
      (runScript pSample).printed =
        [OutLine.shapeMsg (valuesShape xtr),
         OutLine.reportMsg yte (pSample.predGB (xtr, ytr) xte),
         OutLine.shapeMsg (valuesShape xtr),
         OutLine.reportMsg yte (pSample.predAda (xtr, ytr) xte)]) :=
  ⟨by decide, console_two_blocks pSample (by decide)⟩

/-- C6: when every call up to and including `start_run` of the first
cycle returns but the first cycle's fit raises (or fit returns and
predict raises), the completed trace contains no step of the second cycle
(start, fit, or predict), contains the first cycle's start but not its
end, and leaves exactly one run open. -/
theorem first_cycle_failure_aborts (ok : Step → Bool)
    (hpre : ok Step.load = true ∧ ok Step.split = true ∧ ok Step.popTrain = true ∧
      ok Step.popTest = true ∧ ok Step.setExperiment = true ∧ ok Step.autolog = true ∧
      ok Step.printShape1 = true ∧ ok Step.startRun1 = true)
    (hfail : ok Step.fit1 = false ∨ (ok Step.fit1 = true ∧ ok Step.predict1 = false)) :
    Step.startRun2 ∉ completed ok ∧ Step.fit2 ∉ completed ok ∧
    Step.predict2 ∉ completed ok ∧
    Step.startRun1 ∈ completed ok ∧ Step.endRun1 ∉ completed ok ∧
    runBalance (completed ok) = 1 := by
  obtain ⟨h1, h2, h3, h4, h5, h6, h7, h8⟩ := hpre
  rcases hfail with h9 | ⟨h9, h10⟩
  · have hc : completed ok = [Step.load, Step.split, Step.popTrain, Step.popTest,
        Step.setExperiment, Step.autolog, Step.printShape1, Step.startRun1] := by
      simp [completed, script, List.takeWhile_cons, h1, h2, h3, h4, h5, h6, h7, h8, h9]
    rw [hc]
    decide
  · have hc : completed ok = [Step.load, Step.split, Step.popTrain, Step.popTest,
        Step.setExperiment, Step.autolog, Step.printShape1, Step.startRun1, Step.fit1] := by
      simp [completed, script, List.takeWhile_cons, h1, h2, h3, h4, h5, h6, h7, h8, h9, h10]
    rw [hc]
    decide

/-- Witness for C6 with the oracle that fails exactly at the first
cycle's fit. -/
theorem first_cycle_failure_aborts_witness :
    Step.startRun2 ∉ completed (fun s => !(s == Step.fit1)) ∧
    Step.fit2 ∉ completed (fun s => !(s == Step.fit1)) ∧
    Step.predict2 ∉ completed (fun s => !(s == Step.fit1)) ∧
    Step.startRun1 ∈ completed (fun s => !(s == Step.fit1)) ∧
    Step.endRun1 ∉ completed (fun s => !(s == Step.fit1)) ∧
    runBalance (completed (fun s => !(s == Step.fit1))) = 1 :=
  first_cycle_failure_aborts (fun s => !(s == Step.fit1))
    ⟨by decide, by decide, by decide, by decide, by decide, by decide, by decide, by decide⟩
    (Or.inl (by decide))

theorem takeWhile_eq_take_length {α : Type} (p : α → Bool) (l : List α) :
    l.takeWhile p = l.take (l.takeWhile p).length := by
  induction l with
  | nil => simp
  | cons a t ih =>
    cases hp : p a
    · simp [List.takeWhile_cons, hp]
    · simp only [List.takeWhile_cons, hp, List.length_cons, List.take_succ_cons]
      exact congrArg (a :: ·) ih

theorem find?_not_eq_after_takeWhile {α : Type} (p : α → Bool) (l : List α) :
    l.find? (fun a => !p a) = l[(l.takeWhile p).length]? := by
  induction l with
  | nil => simp
  | cons a t ih =>
    cases hp : p a
    · simp [List.find?_cons, hp, List.takeWhile_cons]
    · simp [List.find?_cons, hp, List.takeWhile_cons]
      exact ih

theorem dangling_take_char :
    ∀ k, k ≤ script.length → dangling (script.take k) = true →
      script[k]? = some Step.fit1 ∨ script[k]? = some Step.predict1 ∨
      script[k]? = some Step.report1 ∨ script[k]? = some Step.endRun1 ∨
      script[k]? = some Step.fit2 ∨ script[k]? = some Step.predict2 ∨
      script[k]? = some Step.report2 ∨ script[k]? = some Step.endRun2 := by
  decide

/-- Counterexample to C10 as stated: the oracle whose only raising call
is the first cycle's `end_run` leaves a dangling open run, yet the
failing step is neither a fit, predict, or report step nor a
data-preparation step. -/
theorem dangling_run_endrun_counterexample :
    dangling (completed (fun s => !(s == Step.endRun1))) = true ∧
    firstFail (fun s => !(s == Step.endRun1)) = some Step.endRun1 ∧
    Step.endRun1 ∉ [Step.fit1, Step.predict1, Step.report1,
      Step.fit2, Step.predict2, Step.report2] ∧
    Step.endRun1 ∉ prepSteps := by
  decide

/-- C10 (amended): loading, splitting, and both label extractions all
precede the first run start in the script; if any of them raises, the
process aborts with zero runs ever started; and a dangling open run can
arise only when the first raising call is a step of a training cycle:
its fit, predict, report, or run-end call. -/
theorem dangling_only_from_cycle :
    (script.findIdx (· == Step.load) < script.findIdx (· == Step.startRun1) ∧
     script.findIdx (· == Step.split) < script.findIdx (· == Step.startRun1) ∧
     script.findIdx (· == Step.popTrain) < script.findIdx (· == Step.startRun1) ∧
     script.findIdx (· == Step.popTest) < script.findIdx (· == Step.startRun1)) ∧
    (∀ ok : Step → Bool,
      (ok Step.load && ok Step.split && ok Step.popTrain && ok Step.popTest) = false →
      (completed ok).countP isStartStep = 0) ∧
    (∀ ok : Step → Bool, dangling (completed ok) = true →
      firstFail ok = some Step.fit1 ∨ firstFail ok = some Step.predict1 ∨
      firstFail ok = some Step.report1 ∨ firstFail ok = some Step.endRun1 ∨
      firstFail ok = some Step.fit2 ∨ firstFail ok = some Step.predict2 ∨
      firstFail ok = some Step.report2 ∨ firstFail ok = some Step.endRun2) := by
  refine ⟨by decide, ?_, ?_⟩
  · intro ok h
    cases hl : ok Step.load
    · have hc : completed ok = [] := by
        simp [completed, script, List.takeWhile_cons, hl]
      rw [hc]
      decide
    · cases hs : ok Step.split
      · have hc : completed ok = [Step.load] := by
          simp [completed, script, List.takeWhile_cons, hl, hs]
        rw [hc]
        decide
      · cases hp1 : ok Step.popTrain
        · have hc : completed ok = [Step.load, Step.split] := by
            simp [completed, script, List.takeWhile_cons, hl, hs, hp1]
          rw [hc]
          decide
        · cases hp2 : ok Step.popTest
          · have hc : completed ok = [Step.load, Step.split, Step.popTrain] := by
              simp [completed, script, List.takeWhile_cons, hl, hs, hp1, hp2]
            rw [hc]
            decide
          · rw [hl, hs, hp1, hp2] at h
            exact absurd h (by decide)
  · intro ok hd
    have h1 : completed ok = script.take (script.takeWhile ok).length := by
      simpa [completed] using takeWhile_eq_take_length ok script
    have h2 : firstFail ok = script[(script.takeWhile ok).length]? := by
      simpa [firstFail] using find?_not_eq_after_takeWhile ok script
    have hk : (script.takeWhile ok).length ≤ script.length := by
      have := List.length_take ((script.takeWhile ok).length) script
      calc (script.takeWhile ok).length
          = (script.take (script.takeWhile ok).length).length := by
            rw [← takeWhile_eq_take_length]
        _ ≤ script.length := by
            rw [List.length_take]
            omega
    rw [h1] at hd
    rw [h2]
    exact dangling_take_char _ hk hd

/-- Witness for C10: a prep-stage failure (at the test-partition pop)
starts zero runs, and the fit-failure oracle leaves a dangling run whose
first raising call is the fit itself. -/
theorem dangling_only_from_cycle_witness :
    ((fun s => !(s == Step.popTest)) Step.load && (fun s => !(s == Step.popTest)) Step.split &&
      (fun s => !(s == Step.popTest)) Step.popTrain &&
      (fun s => !(s == Step.popTest)) Step.popTest) = false ∧
    (completed (fun s => !(s == Step.popTest))).countP isStartStep = 0 ∧
    dangling (completed (fun s => !(s == Step.fit1))) = true ∧
    (firstFail (fun s => !(s == Step.fit1)) = some Step.fit1 ∨
     firstFail (fun s => !(s == Step.fit1)) = some Step.predict1 ∨
     firstFail (fun s => !(s == Step.fit1)) = some Step.report1 ∨
     firstFail (fun s => !(s == Step.fit1)) = some Step.endRun1 ∨
     firstFail (fun s => !(s == Step.fit1)) = some Step.fit2 ∨
     firstFail (fun s => !(s == Step.fit1)) = some Step.predict2 ∨
     firstFail (fun s => !(s == Step.fit1)) = some Step.report2 ∨
     firstFail (fun s => !(s == Step.fit1)) = some Step.endRun2) :=
  ⟨by decide,
   dangling_only_from_cycle.2.1 (fun s => !(s == Step.popTest)) (by decide),
   by decide,
   dangling_only_from_cycle.2.2 (fun s => !(s == Step.fit1)) (by decide)⟩
